import Mathlib

/-!
Shallow embedding of the `map` rule-resolution engine
(src/rule.rs, src/action.rs, src/mapping.rs, src/directive.rs, src/context.rs,
src/main.rs) together with proofs about it.

Paths are modelled as their lists of normal components; the filesystem is an
in-memory store of directories and file contents; the OS-level collaborators
(directory creation, copy, rename) are modelled as total operations on that
store, with the error shapes the Rust code produces.  The `regex` crate is an
external collaborator and is modelled by its observable behaviour: a compiled
regex is a boolean match predicate on strings.
-/

set_option autoImplicit false

/-- Models `std::path::PathBuf` as the list of its components, as produced by
pushing/joining relative path fragments.  Absolute-path replacement semantics
of `PathBuf::join` are outside the model: all paths are component lists and
`join` appends. -/
structure MapPath where
  components : List String
deriving DecidableEq

/-- `PathBuf::join` with a relative right-hand side: append the components. -/
def MapPath.join (p q : MapPath) : MapPath :=
  ⟨p.components ++ q.components⟩

/-- `Path::file_name`: the final normal component of the path.  `.` and empty
components never count (Rust's component normalization skips them), and a path
whose last component is `..` has no file name, exactly as `Path::file_name`
returns `None` for a path terminating in `..`. -/
def MapPath.fileName (p : MapPath) : Option String :=
  match (p.components.filter (fun c => !(c == ".") && !(c == ""))).getLast? with
  | none => none
  | some c => if c = ".." then none else some c

/-- Models `context.rs`: `MapFileContext { source_dir, dest_dir, dry_run }`,
immutable per run. -/
structure MapFileContext where
  source_dir : MapPath
  dest_dir : MapPath
  dry_run : Bool
deriving DecidableEq

/-- The error values the code builds (src/error.rs is `error_chain!`
boilerplate producing message-carrying errors; each constructor here carries
the data of one `bail!`/`chain_err` site of the sources under src/). -/
inductive MapError where
  /-- A generic error-chain message (used by test directives/actions). -/
  | msg (message : String)
  /-- `mapping.rs` `determine_task`: "Duplicate rules {:?} and {:?} match file {}". -/
  | duplicateRuleMatch (first_rule second_rule : String) (file : MapPath)
  /-- `directive.rs` `mapping_from_string`: "Ambiguous directive '{}', which matched {}". -/
  | ambiguousDirective (line : String) (directives : List String)
  /-- `action.rs` `perform_file_operation`: "Internal failure: File {} does not have a file name". -/
  | noFileName (file : MapPath)
  /-- `action.rs`: "Unable to copy/move file {} to destination {}". -/
  | fileOperationFailed (source destination : MapPath)
deriving DecidableEq

/-- The in-memory filesystem the deferred tasks act on: a set of existing
directories and an association of file paths to contents. -/
structure FileSystem where
  dirs : List MapPath
  files : List (MapPath × String)
deriving DecidableEq

/-- `Path::is_dir` against the modelled filesystem. -/
def FileSystem.isDir (fs : FileSystem) (p : MapPath) : Bool :=
  fs.dirs.contains p

/-- Content of the file at `p`, if one exists. -/
def FileSystem.getFile (fs : FileSystem) (p : MapPath) : Option String :=
  (fs.files.find? (fun e => e.1 == p)).map (fun e => e.2)

/-- `fs::create_dir_all`: creates the directory and all its ancestors.  The
model treats creation as always succeeding; OS-level failures (permissions,
illegal characters) are external-collaborator outcomes outside the model. -/
def FileSystem.create_dir_all (fs : FileSystem) (p : MapPath) : FileSystem :=
  { fs with
    dirs := p :: (List.range p.components.length).map
      (fun n => MapPath.mk (p.components.take (n + 1))) ++ fs.dirs }

/-- Write (or overwrite) the file at `p` with `content`. -/
def FileSystem.setFile (fs : FileSystem) (p : MapPath) (content : String) : FileSystem :=
  { fs with files := (p, content) :: fs.files.filter (fun e => !(e.1 == p)) }

/-- Remove the file at `p` if present. -/
def FileSystem.removeFile (fs : FileSystem) (p : MapPath) : FileSystem :=
  { fs with files := fs.files.filter (fun e => !(e.1 == p)) }

/-- `fs::copy(source, destination)`: the destination receives the source's
content; the source is left in place. -/
def FileSystem.copyFile (fs : FileSystem) (source destination : MapPath) :
    Except MapError Unit × FileSystem :=
  match fs.getFile source with
  | some content => (Except.ok (), fs.setFile destination content)
  | none => (Except.error (MapError.fileOperationFailed source destination), fs)

/-- `fs::rename(source, destination)`: the source entry is removed and the
destination receives its content. -/
def FileSystem.renameFile (fs : FileSystem) (source destination : MapPath) :
    Except MapError Unit × FileSystem :=
  match fs.getFile source with
  | some content => (Except.ok (), (fs.removeFile source).setFile destination content)
  | none => (Except.error (MapError.fileOperationFailed source destination), fs)

/-- A compiled regular expression of the `regex` crate, modelled by its
observable behaviour: `Regex::is_match`, an unanchored search predicate. -/
structure Regex where
  isMatch : String → Bool

/-- `haystack` contains `pat` as a contiguous substring. -/
def contains_substring (haystack pat : String) : Bool :=
  (List.range (haystack.toList.length + 1)).any
    (fun i => pat.toList.isPrefixOf (haystack.toList.drop i))

/-- The compiled form of a literal pattern: `Regex::is_match` for a pattern
with no metacharacters is an unanchored substring search. -/
def literal_regex (pat : String) : Regex :=
  ⟨fun s => contains_substring s pat⟩

/-- `rule.rs`: `RegexRule { rule: Regex }`. -/
structure RegexRule where
  rule : Regex

/-- `rule.rs` `RegexRule::file_matches_rule`:
`let file_name = file.file_name().unwrap(); self.rule.is_match(&file_name.to_string_lossy())`.
The `unwrap` panics when the path has no file name; the panic is modelled as
`none`, and a normal boolean return as `some`. -/
def RegexRule.file_matches_rule (r : RegexRule) (file : MapPath)
    (_file_context : MapFileContext) : Option Bool :=
  match file.fileName with
  | none => none
  | some file_name => some (r.rule.isMatch file_name)

/-- `mapping.rs`: the `MapRule` trait object a `Mapping` owns.  Its contract
(`fn file_matches_rule(&self, file, ctx) -> bool`) is a total boolean
predicate; `descr` is the `Debug` representation used in error messages. -/
structure MapRule where
  descr : String
  file_matches_rule : MapPath → MapFileContext → Bool

/-- `action.rs` `MapFileTask`: a deferred single-shot operation.  The boxed
closure captures the matched file (`source`) and, executed against a context,
acts on the filesystem and yields the `Result<()>` outcome. -/
structure MapFileTask where
  source : MapPath
  run : MapFileContext → FileSystem → Except MapError Unit × FileSystem

/-- `action.rs`: the `MapAction` trait.  `create_task(file)` packages the
action's behaviour for `file` into a deferred task closing over `file`. -/
structure MapAction where
  createRun : MapPath → MapFileContext → FileSystem → Except MapError Unit × FileSystem

/-- `MapAction::create_task`: build the deferred task for `file`. -/
def MapAction.create_task (a : MapAction) (file : MapPath) : MapFileTask :=
  ⟨file, a.createRun file⟩

/-- `action.rs` `create_output_directory`: join `dest_dir` with the relative
output directory, create it (recursively) when it does not exist and this is
not a dry run, and return it.  The `Result` shape mirrors the source; in the
model directory creation always succeeds (OS failures are external). -/
def create_output_directory (destination_directory relative_output_directory : MapPath)
    (dry_run : Bool) (fs : FileSystem) : Except MapError MapPath × FileSystem :=
  let destination_directory := destination_directory.join relative_output_directory
  if !(fs.isDir destination_directory) && !dry_run then
    (Except.ok destination_directory, fs.create_dir_all destination_directory)
  else
    (Except.ok destination_directory, fs)

/-- `action.rs` `perform_file_operation`: prepare the output directory, fail
with the no-file-name error when the source path has no extractable base name,
otherwise run the supplied operation against `output_directory / file_name`. -/
def perform_file_operation (file : MapPath) (file_context : MapFileContext)
    (relative_destination : MapPath)
    (operation : MapPath → FileSystem → Except MapError Unit × FileSystem)
    (fs : FileSystem) : Except MapError Unit × FileSystem :=
  match create_output_directory file_context.dest_dir relative_destination
      file_context.dry_run fs with
  | (Except.error e, fs1) => (Except.error e, fs1)
  | (Except.ok output_directory, fs1) =>
    match file.fileName with
    | none => (Except.error (MapError.noFileName file), fs1)
    | some file_name => operation (output_directory.join ⟨[file_name]⟩) fs1

/-- `action.rs` `CopyAction`: the deferred task copies the file to the
resolved destination unless `dry_run` is set. -/
def CopyAction (relative_destination : MapPath) : MapAction :=
  ⟨fun file file_context fs =>
    perform_file_operation file file_context relative_destination
      (fun destination fs2 =>
        if !file_context.dry_run then fs2.copyFile file destination
        else (Except.ok (), fs2))
      fs⟩

/-- `action.rs` `MoveAction`: the deferred task renames (moves) the file to
the resolved destination unless `dry_run` is set. -/
def MoveAction (relative_destination : MapPath) : MapAction :=
  ⟨fun file file_context fs =>
    perform_file_operation file file_context relative_destination
      (fun destination fs2 =>
        if !file_context.dry_run then fs2.renameFile file destination
        else (Except.ok (), fs2))
      fs⟩

/-- `mapping.rs` `Mapping`: one rule paired with one action. -/
structure Mapping where
  rule : MapRule
  action : MapAction

/-- The loop body of `mapping.rs` `determine_task`, with the mutable
`task`/`found_mapping` state made explicit: the accumulator holds the task
selected so far together with the selecting rule's description. -/
def determine_task_go (file : MapPath) (file_context : MapFileContext) :
    List Mapping → Option (MapFileTask × String) → Except MapError (Option MapFileTask)
  | [], acc => Except.ok (acc.map Prod.fst)
  | m :: rest, acc =>
    if m.rule.file_matches_rule file file_context then
      match acc with
      | none =>
        determine_task_go file file_context rest
          (some (m.action.create_task file, m.rule.descr))
      | some (_, first_descr) =>
        Except.error (MapError.duplicateRuleMatch first_descr m.rule.descr file)
    else
      determine_task_go file file_context rest acc

/-- `mapping.rs` `determine_task`: select at most one mapping for `file`,
failing when a second mapping's rule also matches. -/
def determine_task (mappings : List Mapping) (file : MapPath)
    (file_context : MapFileContext) : Except MapError (Option MapFileTask) :=
  determine_task_go file file_context mappings none

/-- The loop of `mapping.rs` `determine_tasks`, with the growing task vector
made explicit (tasks are pushed at the end, preserving file order). -/
def determine_tasks_go (mappings : List Mapping) (file_context : MapFileContext) :
    List MapPath → List MapFileTask → Except MapError (List MapFileTask)
  | [], tasks => Except.ok tasks
  | file :: rest, tasks =>
    match determine_task mappings file file_context with
    | Except.error e => Except.error e
    | Except.ok (some task) => determine_tasks_go mappings file_context rest (tasks ++ [task])
    | Except.ok none => determine_tasks_go mappings file_context rest tasks

/-- `mapping.rs` `determine_tasks`: one task per file that matches exactly one
mapping, in file order; unmatched files contribute nothing. -/
def determine_tasks (mappings : List Mapping) (files : List MapPath)
    (file_context : MapFileContext) : Except MapError (List MapFileTask) :=
  determine_tasks_go mappings file_context files []

/-- `directive.rs`: the `MappingDirective` trait.  `create_mapping` returns
`none` when the directive's surface syntax does not apply to the line, and
`some` (a parse success or failure) when it does; `directive_name` is the
`Display` name used in diagnostics. -/
structure MappingDirective where
  directive_name : String
  create_mapping : String → Option (Except MapError Mapping)

/-- The loop body of `directive.rs` `mapping_from_string`: the accumulator is
the pair of the `matched_directives` names collected so far and the
`found_mapping` kept from the most recent match. -/
def mapping_from_string_step (directive_definition : String)
    (acc : List String × Option (Except MapError Mapping))
    (directive : MappingDirective) :
    List String × Option (Except MapError Mapping) :=
  match directive.create_mapping directive_definition with
  | some mapping_result => (acc.1 ++ [directive.directive_name], some mapping_result)
  | none => acc

/-- `directive.rs` `mapping_from_string`: try every directive against the
line; more than one surface match is an `AmbiguousDirective` error carrying
the line and the matched directive names (the source folds the names into one
message string; the model keeps them as the list), otherwise the single
match's own result — or no mapping at all — is returned. -/
def mapping_from_string (all_directives : List MappingDirective)
    (directive_definition : String) : Option (Except MapError Mapping) :=
  let scanned := all_directives.foldl (mapping_from_string_step directive_definition)
    ([], none)
  if scanned.1.length > 1 then
    some (Except.error (MapError.ambiguousDirective directive_definition scanned.1))
  else
    scanned.2

/-- The task-draining loop of `main.rs` `run`:
`while let Some(task) = tasks.pop() { task.execute(&file_context)?; }` —
tasks are popped from the end of the vector and the first failure aborts the
remaining tasks. -/
def run_task_loop (file_context : MapFileContext) (tasks : List MapFileTask)
    (fs : FileSystem) : Except MapError Unit × FileSystem :=
  match h : tasks.getLast? with
  | none => (Except.ok (), fs)
  | some task =>
    match task.run file_context fs with
    | (Except.ok _, fs1) => run_task_loop file_context tasks.dropLast fs1
    | (Except.error e, fs1) => (Except.error e, fs1)
termination_by tasks.length
decreasing_by
  have hne : tasks ≠ [] := by
    intro hnil
    rw [hnil] at h
    simp at h
  have hpos : 0 < tasks.length := List.length_pos.mpr hne
  simp [List.length_dropLast]
  omega

/-- Executing a task list front-to-back, failing fast: the reference order
against which the pop-loop of `run` is compared. -/
def execute_all (file_context : MapFileContext) :
    List MapFileTask → FileSystem → Except MapError Unit × FileSystem
  | [], fs => (Except.ok (), fs)
  | task :: rest, fs =>
    match task.run file_context fs with
    | (Except.ok _, fs1) => execute_all file_context rest fs1
    | (Except.error e, fs1) => (Except.error e, fs1)

/-- The core of `main.rs` `run`, after argument parsing and file discovery:
determine the tasks for the discovered files and drain them with the pop
loop; a resolution error aborts before any task executes. -/
def run_mappings (mappings : List Mapping) (files : List MapPath)
    (file_context : MapFileContext) (fs : FileSystem) :
    Except MapError Unit × FileSystem :=
  match determine_tasks mappings files file_context with
  | Except.error e => (Except.error e, fs)
  | Except.ok tasks => run_task_loop file_context tasks fs

/-! ### Basic filesystem lemmas -/

theorem find?_filter_ne (l : List (MapPath × String)) (p q : MapPath) (hq : q ≠ p) :
    (l.filter (fun e => !(e.1 == p))).find? (fun e => e.1 == q) =
      l.find? (fun e => e.1 == q) := by
  induction l with
  | nil => rfl
  | cons e rest ih =>
    by_cases he : e.1 = p
    · have hpq : (p == q) = false := by
        simp only [beq_eq_false_iff_ne, ne_eq]
        exact fun hh => hq hh.symm
      simp [List.filter_cons, he, List.find?_cons, hpq, ih, hq]
    · by_cases hqe : e.1 = q <;>
        simp [List.filter_cons, he, List.find?_cons, hqe, ih, hq]

theorem getFile_setFile (fs : FileSystem) (p q : MapPath) (content : String) :
    (fs.setFile p content).getFile q =
      if q = p then some content else fs.getFile q := by
  unfold FileSystem.setFile FileSystem.getFile
  by_cases hq : q = p
  · subst hq
    simp [List.find?_cons]
  · have hpq : (p == q) = false := by
      simp only [beq_eq_false_iff_ne, ne_eq]
      exact fun hh => hq hh.symm
    simp [List.find?_cons, hpq, hq, find?_filter_ne fs.files p q hq]

theorem getFile_removeFile_self (fs : FileSystem) (p : MapPath) :
    (fs.removeFile p).getFile p = none := by
  unfold FileSystem.removeFile FileSystem.getFile
  have : (fs.files.filter (fun e => !(e.1 == p))).find? (fun e => e.1 == p) = none := by
    rw [List.find?_eq_none]
    intro x hx
    have := (List.mem_filter.mp hx).2
    simpa using this
  simp [this]

theorem getFile_removeFile_ne (fs : FileSystem) (p q : MapPath) (hq : q ≠ p) :
    (fs.removeFile p).getFile q = fs.getFile q := by
  unfold FileSystem.removeFile FileSystem.getFile
  rw [find?_filter_ne fs.files p q hq]

theorem getFile_create_dir_all (fs : FileSystem) (p q : MapPath) :
    (fs.create_dir_all p).getFile q = fs.getFile q := rfl

theorem isDir_create_dir_all_self (fs : FileSystem) (p : MapPath) :
    (fs.create_dir_all p).isDir p = true := by
  simp [FileSystem.create_dir_all, FileSystem.isDir]

theorem isDir_setFile (fs : FileSystem) (p q : MapPath) (content : String) :
    (fs.setFile p content).isDir q = fs.isDir q := rfl

theorem isDir_removeFile (fs : FileSystem) (p q : MapPath) :
    (fs.removeFile p).isDir q = fs.isDir q := rfl

/-! ### Characterization of `determine_task` -/

theorem determine_task_go_spec (file : MapPath) (ctx : MapFileContext)
    (ms : List Mapping) (acc : Option (MapFileTask × String)) :
    determine_task_go file ctx ms acc =
      match acc, ms.filter (fun m => m.rule.file_matches_rule file ctx) with
      | some (t, _), [] => Except.ok (some t)
      | some (_, d), m :: _ =>
        Except.error (MapError.duplicateRuleMatch d m.rule.descr file)
      | none, [] => Except.ok none
      | none, [m] => Except.ok (some (m.action.create_task file))
      | none, m1 :: m2 :: _ =>
        Except.error (MapError.duplicateRuleMatch m1.rule.descr m2.rule.descr file) := by
  induction ms generalizing acc with
  | nil => rcases acc with _ | ⟨t, d⟩ <;> rfl
  | cons m rest ih =>
    by_cases hm : m.rule.file_matches_rule file ctx = true
    · rcases acc with _ | ⟨t, d⟩
      · simp only [determine_task_go, hm, if_true, List.filter_cons]
        rw [ih]
        rcases hf : rest.filter (fun m => m.rule.file_matches_rule file ctx) with _ | ⟨m2, l⟩ <;>
          simp [hf, hm]
      · simp [determine_task_go, hm, List.filter_cons]
    · have hfc : (m :: rest).filter (fun m2 => m2.rule.file_matches_rule file ctx) =
          rest.filter (fun m2 => m2.rule.file_matches_rule file ctx) := by
        simp [List.filter_cons, hm]
      rcases acc with _ | ⟨t, d⟩ <;>
        simp [determine_task_go, hm, hfc, ih]

theorem determine_task_spec (mappings : List Mapping) (file : MapPath)
    (ctx : MapFileContext) :
    determine_task mappings file ctx =
      match mappings.filter (fun m => m.rule.file_matches_rule file ctx) with
      | [] => Except.ok none
      | [m] => Except.ok (some (m.action.create_task file))
      | m1 :: m2 :: _ =>
        Except.error (MapError.duplicateRuleMatch m1.rule.descr m2.rule.descr file) := by
  rw [determine_task, determine_task_go_spec]
  cases hf : mappings.filter (fun m => m.rule.file_matches_rule file ctx) with
  | nil => rfl
  | cons m1 tail => cases tail <;> rfl

theorem determine_task_error_shape (mappings : List Mapping) (file : MapPath)
    (ctx : MapFileContext) (e : MapError)
    (h : determine_task mappings file ctx = Except.error e) :
    ∃ d1 d2, e = MapError.duplicateRuleMatch d1 d2 file := by
  have hspec := determine_task_spec mappings file ctx
  cases hf : mappings.filter (fun m => m.rule.file_matches_rule file ctx) with
  | nil =>
    rw [hf] at hspec
    rw [hspec] at h
    cases h
  | cons m1 tail =>
    cases tail with
    | nil =>
      rw [hf] at hspec
      rw [hspec] at h
      cases h
    | cons m2 l =>
      rw [hf] at hspec
      rw [hspec] at h
      injection h with h2
      exact ⟨m1.rule.descr, m2.rule.descr, h2.symm⟩

theorem determine_tasks_go_error (mappings : List Mapping) (ctx : MapFileContext)
    (files : List MapPath) (acc : List MapFileTask) (e : MapError)
    (h : determine_tasks_go mappings ctx files acc = Except.error e) :
    ∃ f ∈ files, determine_task mappings f ctx = Except.error e := by
  induction files generalizing acc with
  | nil => cases h
  | cons f rest ih =>
    rw [determine_tasks_go] at h
    cases hdt : determine_task mappings f ctx with
    | error e2 =>
      rw [hdt] at h
      injection h with h2
      exact ⟨f, List.mem_cons_self f rest, by rw [hdt, h2]⟩
    | ok o =>
      rw [hdt] at h
      cases o with
      | some t =>
        obtain ⟨g, hg, hge⟩ := ih (acc ++ [t]) h
        exact ⟨g, List.mem_cons_of_mem f hg, hge⟩
      | none =>
        obtain ⟨g, hg, hge⟩ := ih acc h
        exact ⟨g, List.mem_cons_of_mem f hg, hge⟩

theorem determine_tasks_go_isError (mappings : List Mapping) (ctx : MapFileContext)
    (files : List MapPath) (f : MapPath) (e : MapError)
    (hmem : f ∈ files) (hdt : determine_task mappings f ctx = Except.error e) :
    ∀ acc, ∃ e2, determine_tasks_go mappings ctx files acc = Except.error e2 := by
  induction files with
  | nil => cases hmem
  | cons g rest ih =>
    intro acc
    cases hdg : determine_task mappings g ctx with
    | error e2 => exact ⟨e2, by rw [determine_tasks_go, hdg]⟩
    | ok o =>
      have hfr : f ∈ rest := by
        rcases List.mem_cons.mp hmem with hfg | hfr
        · subst hfg
          rw [hdt] at hdg
          cases hdg
        · exact hfr
      cases o with
      | some t =>
        obtain ⟨e2, h2⟩ := ih hfr (acc ++ [t])
        exact ⟨e2, by rw [determine_tasks_go, hdg]; exact h2⟩
      | none =>
        obtain ⟨e2, h2⟩ := ih hfr acc
        exact ⟨e2, by rw [determine_tasks_go, hdg]; exact h2⟩

theorem determine_tasks_go_ok (mappings : List Mapping) (ctx : MapFileContext)
    (files : List MapPath)
    (h : ∀ f ∈ files,
      (mappings.filter (fun m => m.rule.file_matches_rule f ctx)).length ≤ 1) :
    ∀ acc, ∃ tasks, determine_tasks_go mappings ctx files acc = Except.ok (acc ++ tasks) ∧
      tasks.map MapFileTask.source =
        files.filter (fun f => mappings.any (fun m => m.rule.file_matches_rule f ctx)) := by
  induction files with
  | nil => exact fun acc => ⟨[], by simp [determine_tasks_go]⟩
  | cons f rest ih =>
    intro acc
    have hf := h f (List.mem_cons_self f rest)
    have hrest : ∀ g ∈ rest,
        (mappings.filter (fun m => m.rule.file_matches_rule g ctx)).length ≤ 1 :=
      fun g hg => h g (List.mem_cons_of_mem f hg)
    cases hfil : mappings.filter (fun m => m.rule.file_matches_rule f ctx) with
    | nil =>
      have hdt : determine_task mappings f ctx = Except.ok none := by
        have hspec := determine_task_spec mappings f ctx
        rw [hfil] at hspec
        exact hspec
      have hany : mappings.any (fun m => m.rule.file_matches_rule f ctx) = false := by
        rw [List.any_eq_false]
        intro m hm hmatch
        have hmemf : m ∈ mappings.filter (fun m => m.rule.file_matches_rule f ctx) :=
          List.mem_filter.mpr ⟨hm, hmatch⟩
        rw [hfil] at hmemf
        cases hmemf
      obtain ⟨tasks, htg, hmap⟩ := ih hrest acc
      exact ⟨tasks, by rw [determine_tasks_go, hdt]; exact htg,
        by simp [List.filter_cons, hany, hmap]⟩
    | cons m tail =>
      cases tail with
      | cons m2 l =>
        exfalso
        rw [hfil] at hf
        simp at hf
      | nil =>
        have hdt : determine_task mappings f ctx =
            Except.ok (some (m.action.create_task f)) := by
          have hspec := determine_task_spec mappings f ctx
          rw [hfil] at hspec
          exact hspec
        have hmemf : m ∈ mappings.filter (fun m => m.rule.file_matches_rule f ctx) := by
          rw [hfil]
          exact List.mem_singleton.mpr rfl
        have hany : mappings.any (fun m => m.rule.file_matches_rule f ctx) = true :=
          List.any_eq_true.mpr ⟨m, (List.mem_filter.mp hmemf).1,
            (List.mem_filter.mp hmemf).2⟩
        obtain ⟨tasks, htg, hmap⟩ := ih hrest (acc ++ [m.action.create_task f])
        refine ⟨m.action.create_task f :: tasks, ?_, ?_⟩
        · rw [determine_tasks_go, hdt]
          exact htg.trans (by simp)
        · simp [List.filter_cons, hany, hmap, MapAction.create_task]

/-! ### Characterization of the `mapping_from_string` scan -/

theorem mapping_from_string_scan_fst (line : String) (ds : List MappingDirective)
    (names : List String) (found : Option (Except MapError Mapping)) :
    (ds.foldl (mapping_from_string_step line) (names, found)).1 =
      names ++ (ds.filter (fun d => (d.create_mapping line).isSome)).map
        MappingDirective.directive_name := by
  induction ds generalizing names found with
  | nil => simp
  | cons d rest ih =>
    cases hc : d.create_mapping line with
    | none =>
      simp [List.foldl_cons, mapping_from_string_step, hc, List.filter_cons, ih]
    | some r =>
      simp [List.foldl_cons, mapping_from_string_step, hc, List.filter_cons, ih]

theorem mapping_from_string_scan_snd_nil (line : String) (ds : List MappingDirective)
    (names : List String) (found : Option (Except MapError Mapping))
    (h : ∀ d ∈ ds, d.create_mapping line = none) :
    (ds.foldl (mapping_from_string_step line) (names, found)).2 = found := by
  induction ds generalizing names found with
  | nil => rfl
  | cons d rest ih =>
    have hc := h d (List.mem_cons_self d rest)
    rw [List.foldl_cons]
    have hstep : mapping_from_string_step line (names, found) d = (names, found) := by
      simp [mapping_from_string_step, hc]
    rw [hstep]
    exact ih names found (fun d2 hd2 => h d2 (List.mem_cons_of_mem d hd2))

theorem mapping_from_string_scan_snd_single (line : String)
    (ds : List MappingDirective) (names : List String)
    (found : Option (Except MapError Mapping)) (d : MappingDirective)
    (h : ds.filter (fun d2 => (d2.create_mapping line).isSome) = [d]) :
    (ds.foldl (mapping_from_string_step line) (names, found)).2 =
      d.create_mapping line := by
  induction ds generalizing names found with
  | nil => cases h
  | cons d2 rest ih =>
    rw [List.filter_cons] at h
    cases hc : d2.create_mapping line with
    | some r =>
      rw [hc] at h
      simp at h
      obtain ⟨hd, hrest⟩ := h
      subst hd
      rw [List.foldl_cons]
      have hstep : mapping_from_string_step line (names, found) d2 =
          (names ++ [d2.directive_name], some r) := by
        simp [mapping_from_string_step, hc]
      rw [hstep, mapping_from_string_scan_snd_nil line rest _ _ hrest, hc]
    | none =>
      rw [hc] at h
      simp only [Option.isSome_none, Bool.false_eq_true, if_false] at h
      rw [List.foldl_cons]
      have hstep : mapping_from_string_step line (names, found) d2 = (names, found) := by
        simp [mapping_from_string_step, hc]
      rw [hstep]
      exact ih names found h

/-! ### Characterization of `perform_file_operation` -/

theorem create_output_directory_spec (destination_directory relative_output_directory : MapPath)
    (dry_run : Bool) (fs : FileSystem) :
    create_output_directory destination_directory relative_output_directory dry_run fs =
      (Except.ok (destination_directory.join relative_output_directory),
       if !(fs.isDir (destination_directory.join relative_output_directory)) && !dry_run
       then fs.create_dir_all (destination_directory.join relative_output_directory)
       else fs) := by
  unfold create_output_directory
  split <;> simp_all

theorem perform_file_operation_spec (file : MapPath) (file_context : MapFileContext)
    (relative_destination : MapPath)
    (operation : MapPath → FileSystem → Except MapError Unit × FileSystem)
    (fs : FileSystem) :
    perform_file_operation file file_context relative_destination operation fs =
      (let fs1 := if !(fs.isDir (file_context.dest_dir.join relative_destination))
          && !file_context.dry_run
        then fs.create_dir_all (file_context.dest_dir.join relative_destination)
        else fs
      match file.fileName with
      | none => (Except.error (MapError.noFileName file), fs1)
      | some file_name =>
        operation ((file_context.dest_dir.join relative_destination).join ⟨[file_name]⟩) fs1) := by
  unfold perform_file_operation
  rw [create_output_directory_spec]

/-! ### Concrete fixtures (mirroring the repository's test utilities) -/

/-- `testutils.rs` `dummy_map_file_context`. -/
def dummy_map_file_context : MapFileContext :=
  ⟨⟨["dummy-source-dir"]⟩, ⟨["dummy-dest-dir"]⟩, false⟩

/-- `mapping.rs` test `TestMapAction`: its task does nothing and succeeds. -/
def trivial_action : MapAction :=
  ⟨fun _ _ fs => (Except.ok (), fs)⟩

/-- A mapping whose rule matches nothing, for use as an inner parse result. -/
def trivial_mapping : Mapping :=
  ⟨⟨"TestRule", fun _ _ => false⟩, trivial_action⟩

/-- A rule matching every file, described as "A" (like `mapping.rs`'s
`TestMapRule`, with a catch-all predicate). -/
def catch_all_rule_a : MapRule := ⟨"A", fun _ _ => true⟩

/-- A second catch-all rule, described as "B". -/
def catch_all_rule_b : MapRule := ⟨"B", fun _ _ => true⟩

/-- Two mappings both matching every file. -/
def dup_mappings : List Mapping :=
  [⟨catch_all_rule_a, trivial_action⟩, ⟨catch_all_rule_b, trivial_action⟩]

def dup_file_one : MapPath := ⟨["one.txt"]⟩

def dup_file_two : MapPath := ⟨["two.txt"]⟩

/-- The source files of a resolution result (`none` on a resolution error). -/
def tasks_sources (r : Except MapError (List MapFileTask)) : Option (List MapPath) :=
  match r with
  | Except.ok tasks => some (tasks.map MapFileTask.source)
  | Except.error _ => none

/-! ### The pop loop runs tasks in reverse list order -/

theorem run_task_loop_concat (file_context : MapFileContext)
    (ts : List MapFileTask) (t : MapFileTask) (fs : FileSystem) :
    run_task_loop file_context (ts ++ [t]) fs =
      match t.run file_context fs with
      | (Except.ok _, fs1) => run_task_loop file_context ts fs1
      | (Except.error e, fs1) => (Except.error e, fs1) := by
  rw [run_task_loop]
  split
  · next hnone => simp at hnone
  · next task hsome =>
    rw [List.getLast?_concat] at hsome
    injection hsome with h2
    subst h2
    rw [List.dropLast_concat]

theorem run_task_loop_eq_reverse (file_context : MapFileContext)
    (tasks : List MapFileTask) (fs : FileSystem) :
    run_task_loop file_context tasks fs =
      execute_all file_context tasks.reverse fs := by
  induction tasks using List.reverseRecOn generalizing fs with
  | nil =>
    rw [run_task_loop]
    rfl
  | append_singleton ts t ih =>
    rw [run_task_loop_concat]
    rw [List.reverse_append]
    simp only [List.reverse_cons, List.reverse_nil, List.nil_append,
      List.singleton_append]
    cases htr : t.run file_context fs with
    | mk r fs1 =>
      cases r with
      | ok u => simp [execute_all, htr, ih]
      | error e => simp [execute_all, htr]

/-! ### Claim theorems -/

/-- C5 counterexample: `RegexRule::file_matches_rule` does not return a
boolean for every input path — on the path `a/..`, which has no extractable
base name, the `file.file_name().unwrap()` in `rule.rs` panics (modelled as
`none`) instead of producing a boolean. -/
theorem regex_rule_panics_on_no_file_name :
    (MapPath.mk ["a", ".."]).fileName = none ∧
    RegexRule.file_matches_rule ⟨literal_regex "match"⟩ ⟨["a", ".."]⟩
      dummy_map_file_context = none :=
  ⟨rfl, rfl⟩

/-- C5 (amended): for every path with an extractable base name, the
pattern-rule's match operation is a pure total boolean — it returns the
compiled regex's verdict on the base name, with no side effects and no
failure; malformed patterns are rejected at `Regex` construction time, before
a `RegexRule` exists.  (On a path with no base name, the code panics; see the
counterexample.) -/
theorem regex_rule_total_on_named_paths (r : RegexRule) (file : MapPath)
    (ctx : MapFileContext) (file_name : String) (h : file.fileName = some file_name) :
    RegexRule.file_matches_rule r file ctx = some (r.rule.isMatch file_name) := by
  unfold RegexRule.file_matches_rule
  rw [h]

theorem regex_rule_total_on_named_paths_witness :
    (MapPath.mk ["a", "match.txt"]).fileName = some "match.txt" ∧
    RegexRule.file_matches_rule ⟨literal_regex "match"⟩ ⟨["a", "match.txt"]⟩
      dummy_map_file_context = some ((literal_regex "match").isMatch "match.txt") :=
  ⟨rfl, regex_rule_total_on_named_paths ⟨literal_regex "match"⟩ ⟨["a", "match.txt"]⟩
    dummy_map_file_context "match.txt" rfl⟩

/-- C6: rule matching is decided against the path's final component (base
name) only, never against parent directory components: any two paths with the
same base name match identically under every rule and context, a file
`a/b/match.txt` matches the pattern `match`, and a file `match/b/c.txt` does
not even though `match` occurs in its full path. -/
theorem regex_rule_matches_base_name_only :
    (∀ (r : RegexRule) (p q : MapPath) (ctx1 ctx2 : MapFileContext),
      p.fileName = q.fileName →
      r.file_matches_rule p ctx1 = r.file_matches_rule q ctx2) ∧
    RegexRule.file_matches_rule ⟨literal_regex "match"⟩ ⟨["a", "b", "match.txt"]⟩
      dummy_map_file_context = some true ∧
    RegexRule.file_matches_rule ⟨literal_regex "match"⟩ ⟨["match", "b", "c.txt"]⟩
      dummy_map_file_context = some false := by
  refine ⟨?_, by decide, by decide⟩
  intro r p q ctx1 ctx2 h
  unfold RegexRule.file_matches_rule
  rw [h]

theorem regex_rule_matches_base_name_only_witness :
    RegexRule.file_matches_rule ⟨literal_regex "log"⟩ ⟨["x", "note.txt"]⟩
      dummy_map_file_context =
    RegexRule.file_matches_rule ⟨literal_regex "log"⟩ ⟨["y", "z", "note.txt"]⟩
      dummy_map_file_context :=
  regex_rule_matches_base_name_only.1 ⟨literal_regex "log"⟩ ⟨["x", "note.txt"]⟩
    ⟨["y", "z", "note.txt"]⟩ dummy_map_file_context dummy_map_file_context rfl

/-- The purely computational outcome of a dry-run task execution: success
unless the source path has no extractable base name. -/
def dry_outcome (file : MapPath) : Except MapError Unit :=
  match file.fileName with
  | none => Except.error (MapError.noFileName file)
  | some _ => Except.ok ()

/-- C4: executing any copy or move task with `dry_run = true` performs no
filesystem mutation at any step (the returned filesystem is the input one:
no directory created, no file copied, moved or removed) and returns success
unless the source path has no extractable base name; and when the source path
has no base name the execution fails with the no-file-name error regardless
of the `dry_run` flag. -/
theorem dry_run_performs_no_mutation (relative_destination file : MapPath)
    (ctx : MapFileContext) (fs : FileSystem) :
    (ctx.dry_run = true →
      ((CopyAction relative_destination).create_task file).run ctx fs =
        (dry_outcome file, fs) ∧
      ((MoveAction relative_destination).create_task file).run ctx fs =
        (dry_outcome file, fs)) ∧
    (file.fileName = none →
      (((CopyAction relative_destination).create_task file).run ctx fs).1 =
        Except.error (MapError.noFileName file) ∧
      (((MoveAction relative_destination).create_task file).run ctx fs).1 =
        Except.error (MapError.noFileName file)) := by
  constructor
  · intro hdry
    constructor
    · change perform_file_operation file ctx relative_destination
        (fun destination fs2 =>
          if !ctx.dry_run then fs2.copyFile file destination
          else (Except.ok (), fs2)) fs = _
      rw [perform_file_operation_spec]
      cases hn : file.fileName <;> simp [hn, hdry, dry_outcome]
    · change perform_file_operation file ctx relative_destination
        (fun destination fs2 =>
          if !ctx.dry_run then fs2.renameFile file destination
          else (Except.ok (), fs2)) fs = _
      rw [perform_file_operation_spec]
      cases hn : file.fileName <;> simp [hn, hdry, dry_outcome]
  · intro hn
    constructor
    · change (perform_file_operation file ctx relative_destination
        (fun destination fs2 =>
          if !ctx.dry_run then fs2.copyFile file destination
          else (Except.ok (), fs2)) fs).1 = _
      rw [perform_file_operation_spec]
      simp [hn]
    · change (perform_file_operation file ctx relative_destination
        (fun destination fs2 =>
          if !ctx.dry_run then fs2.renameFile file destination
          else (Except.ok (), fs2)) fs).1 = _
      rw [perform_file_operation_spec]
      simp [hn]

theorem dry_run_performs_no_mutation_witness :
    (MapFileContext.mk ⟨["in"]⟩ ⟨["out"]⟩ true).dry_run = true ∧
    ((CopyAction ⟨["notes"]⟩).create_task ⟨["in", "report.txt"]⟩).run
      ⟨⟨["in"]⟩, ⟨["out"]⟩, true⟩ ⟨[], [(⟨["in", "report.txt"]⟩, "data")]⟩ =
      (dry_outcome ⟨["in", "report.txt"]⟩, ⟨[], [(⟨["in", "report.txt"]⟩, "data")]⟩) ∧
    ((MoveAction ⟨["notes"]⟩).create_task ⟨["in", "report.txt"]⟩).run
      ⟨⟨["in"]⟩, ⟨["out"]⟩, true⟩ ⟨[], [(⟨["in", "report.txt"]⟩, "data")]⟩ =
      (dry_outcome ⟨["in", "report.txt"]⟩, ⟨[], [(⟨["in", "report.txt"]⟩, "data")]⟩) := by
  refine ⟨rfl, ?_, ?_⟩
  · exact (dry_run_performs_no_mutation ⟨["notes"]⟩ ⟨["in", "report.txt"]⟩
      ⟨⟨["in"]⟩, ⟨["out"]⟩, true⟩ ⟨[], [(⟨["in", "report.txt"]⟩, "data")]⟩).1 rfl |>.1
  · exact (dry_run_performs_no_mutation ⟨["notes"]⟩ ⟨["in", "report.txt"]⟩
      ⟨⟨["in"]⟩, ⟨["out"]⟩, true⟩ ⟨[], [(⟨["in", "report.txt"]⟩, "data")]⟩).1 rfl |>.2

/-- The filesystem after the directory-preparation step of
`perform_file_operation` (the output directory has been created when missing,
unless this is a dry run). -/
def prepared_fs (fs : FileSystem) (output_directory : MapPath) (dry_run : Bool) :
    FileSystem :=
  if !(fs.isDir output_directory) && !dry_run
  then fs.create_dir_all output_directory else fs

theorem prepared_fs_getFile (fs : FileSystem) (output_directory : MapPath)
    (dry_run : Bool) (q : MapPath) :
    (prepared_fs fs output_directory dry_run).getFile q = fs.getFile q := by
  unfold prepared_fs
  split
  · rfl
  · rfl

theorem prepared_fs_isDir_self (fs : FileSystem) (output_directory : MapPath) :
    (prepared_fs fs output_directory false).isDir output_directory = true := by
  unfold prepared_fs
  cases hid : fs.isDir output_directory
  · simp [isDir_create_dir_all_self]
  · simp [hid]

theorem copy_task_run (relative_destination file : MapPath) (ctx : MapFileContext)
    (fs : FileSystem) (file_name : String)
    (hname : file.fileName = some file_name) (hdry : ctx.dry_run = false) :
    ((CopyAction relative_destination).create_task file).run ctx fs =
      (prepared_fs fs (ctx.dest_dir.join relative_destination) false).copyFile file
        ((ctx.dest_dir.join relative_destination).join ⟨[file_name]⟩) := by
  change perform_file_operation file ctx relative_destination
      (fun destination fs2 =>
        if !ctx.dry_run then fs2.copyFile file destination
        else (Except.ok (), fs2)) fs = _
  rw [perform_file_operation_spec]
  simp [hname, hdry, prepared_fs]

theorem move_task_run (relative_destination file : MapPath) (ctx : MapFileContext)
    (fs : FileSystem) (file_name : String)
    (hname : file.fileName = some file_name) (hdry : ctx.dry_run = false) :
    ((MoveAction relative_destination).create_task file).run ctx fs =
      (prepared_fs fs (ctx.dest_dir.join relative_destination) false).renameFile file
        ((ctx.dest_dir.join relative_destination).join ⟨[file_name]⟩) := by
  change perform_file_operation file ctx relative_destination
      (fun destination fs2 =>
        if !ctx.dry_run then fs2.renameFile file destination
        else (Except.ok (), fs2)) fs = _
  rw [perform_file_operation_spec]
  simp [hname, hdry, prepared_fs]

/-- C7 (amended): for every existing source file `f` with an extractable base
name, executing the Copy task leaves `f` in place with its content and
produces a copy at `dest_dir/relative_destination/f.name`, and executing the
Move task makes the file exist at `dest_dir/relative_destination/f.name` and —
provided that destination path differs from `f`'s own path — removes `f` from
its original location (when the two coincide the move is a self-rename and `f`
stays in place; see the counterexample); both actions first create the output
directory `dest_dir/relative_destination` recursively if it does not exist. -/
theorem copy_move_execution (relative_destination file : MapPath)
    (ctx : MapFileContext) (fs : FileSystem) (content : String) (file_name : String)
    (hdry : ctx.dry_run = false)
    (hfile : fs.getFile file = some content)
    (hname : file.fileName = some file_name) :
    let output_directory := ctx.dest_dir.join relative_destination
    let destination := output_directory.join ⟨[file_name]⟩
    let copy_result := ((CopyAction relative_destination).create_task file).run ctx fs
    let move_result := ((MoveAction relative_destination).create_task file).run ctx fs
    copy_result.1 = Except.ok () ∧
    copy_result.2.getFile file = some content ∧
    copy_result.2.getFile destination = some content ∧
    copy_result.2.isDir output_directory = true ∧
    move_result.1 = Except.ok () ∧
    move_result.2.getFile destination = some content ∧
    move_result.2.isDir output_directory = true ∧
    (destination ≠ file → move_result.2.getFile file = none) := by
  intro output_directory destination copy_result move_result
  have hprep : (prepared_fs fs output_directory false).getFile file = some content := by
    rw [prepared_fs_getFile]
    exact hfile
  have hcopy : copy_result = (Except.ok (),
      (prepared_fs fs output_directory false).setFile destination content) := by
    show ((CopyAction relative_destination).create_task file).run ctx fs = _
    rw [copy_task_run relative_destination file ctx fs file_name hname hdry]
    unfold FileSystem.copyFile
    rw [hprep]
  have hmove : move_result = (Except.ok (),
      ((prepared_fs fs output_directory false).removeFile file).setFile
        destination content) := by
    show ((MoveAction relative_destination).create_task file).run ctx fs = _
    rw [move_task_run relative_destination file ctx fs file_name hname hdry]
    unfold FileSystem.renameFile
    rw [hprep]
  refine ⟨?_, ?_, ?_, ?_, ?_, ?_, ?_, ?_⟩
  · rw [hcopy]
  · rw [hcopy]
    show (FileSystem.setFile _ _ _).getFile file = some content
    rw [getFile_setFile]
    split
    · rfl
    · rw [prepared_fs_getFile]
      exact hfile
  · rw [hcopy]
    show (FileSystem.setFile _ _ _).getFile destination = some content
    rw [getFile_setFile]
    simp
  · rw [hcopy]
    show (FileSystem.setFile _ _ _).isDir output_directory = true
    rw [isDir_setFile]
    exact prepared_fs_isDir_self fs output_directory
  · rw [hmove]
  · rw [hmove]
    show (FileSystem.setFile _ _ _).getFile destination = some content
    rw [getFile_setFile]
    simp
  · rw [hmove]
    show (FileSystem.setFile _ _ _).isDir output_directory = true
    rw [isDir_setFile, isDir_removeFile]
    exact prepared_fs_isDir_self fs output_directory
  · intro hne
    rw [hmove]
    show (FileSystem.setFile _ _ _).getFile file = none
    rw [getFile_setFile, if_neg (fun hh => hne hh.symm), getFile_removeFile_self]

/-- The spec's worked example context: `source=/in dest=/out`, no dry run. -/
def example_ctx : MapFileContext := ⟨⟨["in"]⟩, ⟨["out"]⟩, false⟩

def example_file : MapPath := ⟨["in", "report.txt"]⟩

def example_fs : FileSystem := ⟨[], [(⟨["in", "report.txt"]⟩, "data")]⟩

theorem copy_move_execution_witness :
    example_ctx.dry_run = false ∧
    example_fs.getFile example_file = some "data" ∧
    example_file.fileName = some "report.txt" ∧
    (((CopyAction ⟨["notes"]⟩).create_task example_file).run example_ctx
      example_fs).2.getFile ⟨["out", "notes", "report.txt"]⟩ = some "data" ∧
    (((MoveAction ⟨["notes"]⟩).create_task example_file).run example_ctx
      example_fs).2.getFile example_file = none := by
  have h := copy_move_execution ⟨["notes"]⟩ example_file example_ctx example_fs "data"
    "report.txt" rfl rfl rfl
  exact ⟨rfl, rfl, rfl, h.2.2.1, h.2.2.2.2.2.2.2 (by decide)⟩

/-- The self-move configuration: the destination directory plus the relative
destination resolve back to the source file's own directory
(`dest_dir = data`, `relative_destination = sorted`, file `data/sorted/f.txt`). -/
def self_move_ctx : MapFileContext := ⟨⟨["data", "sorted"]⟩, ⟨["data"]⟩, false⟩

def self_move_file : MapPath := ⟨["data", "sorted", "f.txt"]⟩

def self_move_fs : FileSystem :=
  ⟨[⟨["data"]⟩, ⟨["data", "sorted"]⟩], [(⟨["data", "sorted", "f.txt"]⟩, "body")]⟩

/-- C7 counterexample: for an existing source file with a base name whose
computed destination `dest_dir/relative_destination/f.name` equals the file's
own path, the Move task is a self-rename — it succeeds but the file still
exists at its original location, so the move does not remove `f` from its
original location as the claim states. -/
theorem move_onto_itself_keeps_source :
    self_move_ctx.dry_run = false ∧
    self_move_fs.getFile self_move_file = some "body" ∧
    self_move_file.fileName = some "f.txt" ∧
    (self_move_ctx.dest_dir.join ⟨["sorted"]⟩).join ⟨["f.txt"]⟩ = self_move_file ∧
    (((MoveAction ⟨["sorted"]⟩).create_task self_move_file).run self_move_ctx
      self_move_fs).1 = Except.ok () ∧
    (((MoveAction ⟨["sorted"]⟩).create_task self_move_file).run self_move_ctx
      self_move_fs).2.getFile self_move_file = some "body" :=
  ⟨rfl, rfl, rfl, rfl, rfl, rfl⟩

/-- C1 counterexample: with two files that each match two mappings,
`determine_tasks` fails with the `DuplicateRuleMatch` error for the first
ambiguous file only — the second ambiguous file (`two.txt`), although it is in
the list and matches both rules, is not the file named by the returned error,
so "for every such file the error names that file" fails. -/
theorem determine_tasks_duplicate_names_first_file_only :
    2 ≤ (dup_mappings.filter
      (fun m => m.rule.file_matches_rule dup_file_two dummy_map_file_context)).length ∧
    dup_file_two ∈ [dup_file_one, dup_file_two] ∧
    determine_tasks dup_mappings [dup_file_one, dup_file_two] dummy_map_file_context =
      Except.error (MapError.duplicateRuleMatch "A" "B" dup_file_one) ∧
    dup_file_one ≠ dup_file_two :=
  ⟨by decide, by decide, rfl, by decide⟩

/-- C1 (amended): for every file in the candidate list whose path matches the
rules of two or more mappings, the per-file `determine_task` returns the
`DuplicateRuleMatch` error naming the first two matching mappings' rules and
that file; consequently `determine_tasks` fails with a `DuplicateRuleMatch`
error (the one for the first ambiguous file in list order), and no filesystem
mutation is performed — the run aborts before any task executes, leaving the
filesystem unchanged. -/
theorem determine_task_duplicate_rule_match (mappings : List Mapping)
    (files : List MapPath) (ctx : MapFileContext) (file : MapPath)
    (m1 m2 : Mapping) (restm : List Mapping)
    (hmem : file ∈ files)
    (hfil : mappings.filter (fun m => m.rule.file_matches_rule file ctx) =
      m1 :: m2 :: restm) :
    determine_task mappings file ctx =
      Except.error (MapError.duplicateRuleMatch m1.rule.descr m2.rule.descr file) ∧
    (∃ d1 d2 f2, determine_tasks mappings files ctx =
      Except.error (MapError.duplicateRuleMatch d1 d2 f2)) ∧
    (∀ fs, ∃ e, run_mappings mappings files ctx fs = (Except.error e, fs)) := by
  have hdt : determine_task mappings file ctx =
      Except.error (MapError.duplicateRuleMatch m1.rule.descr m2.rule.descr file) := by
    have hspec := determine_task_spec mappings file ctx
    rw [hfil] at hspec
    exact hspec
  obtain ⟨e2, h2⟩ := determine_tasks_go_isError mappings ctx files file _ hmem hdt []
  have htasks : determine_tasks mappings files ctx = Except.error e2 := by
    rw [determine_tasks]
    exact h2
  refine ⟨hdt, ?_, ?_⟩
  · obtain ⟨g, hg, hge⟩ := determine_tasks_go_error mappings ctx files [] e2 h2
    obtain ⟨d1, d2, he⟩ := determine_task_error_shape mappings g ctx e2 hge
    exact ⟨d1, d2, g, by rw [htasks, he]⟩
  · intro fs
    exact ⟨e2, by rw [run_mappings, htasks]⟩

theorem determine_task_duplicate_rule_match_witness :
    dup_file_one ∈ [dup_file_one] ∧
    determine_task dup_mappings dup_file_one dummy_map_file_context =
      Except.error (MapError.duplicateRuleMatch "A" "B" dup_file_one) :=
  ⟨by decide,
    (determine_task_duplicate_rule_match dup_mappings [dup_file_one]
      dummy_map_file_context dup_file_one ⟨catch_all_rule_a, trivial_action⟩
      ⟨catch_all_rule_b, trivial_action⟩ [] (by decide) rfl).1⟩

/-- C3 counterexample: over an input list that repeats the same candidate file,
`determine_tasks` (with a single catch-all mapping, so every file matches at
most one mapping) returns two tasks both referencing that one source file —
violating "no two Tasks referencing the same source file" and "exactly one
Task per matched file". -/
theorem determine_tasks_duplicate_input_files :
    ([Mapping.mk catch_all_rule_a trivial_action].filter
      (fun m => m.rule.file_matches_rule dup_file_one dummy_map_file_context)).length ≤ 1 ∧
    tasks_sources (determine_tasks [⟨catch_all_rule_a, trivial_action⟩]
      [dup_file_one, dup_file_one] dummy_map_file_context) =
      some [dup_file_one, dup_file_one] ∧
    ¬ ([dup_file_one, dup_file_one] : List MapPath).Nodup :=
  ⟨by decide, rfl, by decide⟩

/-- C3 (amended): for every list of mappings and every duplicate-free list of
candidate files such that each file matches at most one mapping's rule,
`determine_tasks` succeeds and its tasks' source files are exactly the matched
files in input order (one task per matched file, none for unmatched files),
the task count is at most the file count, and no two tasks reference the same
source file. -/
theorem determine_tasks_unambiguous (mappings : List Mapping) (files : List MapPath)
    (ctx : MapFileContext)
    (hnodup : files.Nodup)
    (h : ∀ f ∈ files,
      (mappings.filter (fun m => m.rule.file_matches_rule f ctx)).length ≤ 1) :
    tasks_sources (determine_tasks mappings files ctx) =
      some (files.filter (fun f => mappings.any (fun m => m.rule.file_matches_rule f ctx))) ∧
    (files.filter (fun f => mappings.any (fun m => m.rule.file_matches_rule f ctx))).length ≤
      files.length ∧
    (files.filter (fun f => mappings.any (fun m => m.rule.file_matches_rule f ctx))).Nodup := by
  obtain ⟨tasks, htg, hmap⟩ := determine_tasks_go_ok mappings ctx files h []
  have htasks : determine_tasks mappings files ctx = Except.ok tasks := by
    rw [determine_tasks, htg]
    simp
  refine ⟨?_, List.length_filter_le _ _, hnodup.filter _⟩
  rw [htasks, tasks_sources, hmap]

theorem determine_tasks_unambiguous_witness :
    ([dup_file_one, dup_file_two] : List MapPath).Nodup ∧
    ([Mapping.mk catch_all_rule_a trivial_action].filter
      (fun m => m.rule.file_matches_rule dup_file_one dummy_map_file_context)).length ≤ 1 ∧
    ([Mapping.mk catch_all_rule_a trivial_action].filter
      (fun m => m.rule.file_matches_rule dup_file_two dummy_map_file_context)).length ≤ 1 ∧
    tasks_sources (determine_tasks [⟨catch_all_rule_a, trivial_action⟩]
      [dup_file_one, dup_file_two] dummy_map_file_context) =
      some [dup_file_one, dup_file_two] :=
  ⟨by decide, by decide, by decide,
    (determine_tasks_unambiguous [⟨catch_all_rule_a, trivial_action⟩]
      [dup_file_one, dup_file_two] dummy_map_file_context (by decide)
      (by decide)).1⟩

/-- C2: for every configuration line whose surface syntax is matched by two or
more of the registered directives, `mapping_from_string` returns the
`AmbiguousDirective` error naming the line and listing all matching
directives' names, regardless of whether any matched directive's inner parse
would have succeeded (no assumption is made on the inner results). -/
theorem mapping_from_string_ambiguous (all_directives : List MappingDirective)
    (line : String)
    (h : 2 ≤ (all_directives.filter (fun d => (d.create_mapping line).isSome)).length) :
    mapping_from_string all_directives line =
      some (Except.error (MapError.ambiguousDirective line
        ((all_directives.filter (fun d => (d.create_mapping line).isSome)).map
          MappingDirective.directive_name))) := by
  have hfst := mapping_from_string_scan_fst line all_directives [] none
  simp only [mapping_from_string]
  rw [hfst]
  rw [if_pos (by simp only [List.nil_append, List.length_map]; omega)]
  simp

/-- C8: for every configuration line whose surface syntax is matched by
exactly one registered directive, `mapping_from_string` returns that
directive's own parse result unchanged — a successfully constructed mapping or
a parse failure alike. -/
theorem mapping_from_string_single_match (all_directives : List MappingDirective)
    (line : String) (d : MappingDirective)
    (hfil : all_directives.filter (fun d2 => (d2.create_mapping line).isSome) = [d]) :
    mapping_from_string all_directives line = d.create_mapping line := by
  have hfst := mapping_from_string_scan_fst line all_directives [] none
  rw [hfil] at hfst
  simp only [mapping_from_string]
  rw [hfst]
  rw [if_neg (by simp)]
  exact mapping_from_string_scan_snd_single line all_directives [] none d hfil

/-- C9: for every configuration line matching no registered directive's
surface grammar (for example a blank line or a comment), `mapping_from_string`
returns no mapping (`none`), not an error. -/
theorem mapping_from_string_no_match (all_directives : List MappingDirective)
    (line : String)
    (h : ∀ d ∈ all_directives, d.create_mapping line = none) :
    mapping_from_string all_directives line = none := by
  have hfil : all_directives.filter (fun d => (d.create_mapping line).isSome) = [] := by
    rw [List.filter_eq_nil_iff]
    intro d hd
    simp [h d hd]
  have hfst := mapping_from_string_scan_fst line all_directives [] none
  rw [hfil] at hfst
  simp only [mapping_from_string]
  rw [hfst]
  rw [if_neg (by simp)]
  exact mapping_from_string_scan_snd_nil line all_directives [] none h

/-- A directive whose surface syntax matches every line and whose inner parse
succeeds. -/
def test_directive_one : MappingDirective :=
  ⟨"DirectiveOne", fun _ => some (Except.ok trivial_mapping)⟩

/-- A directive whose surface syntax matches every line but whose inner parse
fails (like a matched copy directive with an invalid embedded regex). -/
def test_directive_two : MappingDirective :=
  ⟨"DirectiveTwo", fun _ => some (Except.error (MapError.msg "invalid regex"))⟩

/-- A directive whose surface syntax matches no line. -/
def test_directive_inert : MappingDirective :=
  ⟨"Inert", fun _ => none⟩

theorem mapping_from_string_ambiguous_witness :
    2 ≤ ([test_directive_one, test_directive_two].filter
      (fun d => (d.create_mapping "x").isSome)).length ∧
    mapping_from_string [test_directive_one, test_directive_two] "x" =
      some (Except.error (MapError.ambiguousDirective "x"
        ["DirectiveOne", "DirectiveTwo"])) :=
  ⟨by decide, mapping_from_string_ambiguous [test_directive_one, test_directive_two]
    "x" (by decide)⟩

theorem mapping_from_string_single_match_witness :
    mapping_from_string [test_directive_inert, test_directive_two] "x" =
      some (Except.error (MapError.msg "invalid regex")) :=
  mapping_from_string_single_match [test_directive_inert, test_directive_two] "x"
    test_directive_two rfl

theorem mapping_from_string_no_match_witness :
    mapping_from_string [test_directive_inert] "" = none :=
  mapping_from_string_no_match [test_directive_inert] ""
    (fun d hd => by rw [List.mem_singleton.mp hd]; rfl)

/-- C10: the run core drains the resolved task list by popping from the end
(`while let Some(task) = tasks.pop()`), so it executes the tasks in reverse
list order — the task for the last discovered file runs first and the task for
the first discovered file runs last — with the first failure aborting the
remaining tasks: the pop loop coincides with fail-fast front-to-back execution
of the reversed list, and the run core behaves exactly so on every task list
returned by `determine_tasks`. -/
theorem run_drains_tasks_in_reverse :
    (∀ (file_context : MapFileContext) (tasks : List MapFileTask) (fs : FileSystem),
      run_task_loop file_context tasks fs =
        execute_all file_context tasks.reverse fs) ∧
    (∀ (mappings : List Mapping) (files : List MapPath)
      (file_context : MapFileContext) (fs : FileSystem) (tasks : List MapFileTask),
      determine_tasks mappings files file_context = Except.ok tasks →
      run_mappings mappings files file_context fs =
        execute_all file_context tasks.reverse fs) := by
  refine ⟨run_task_loop_eq_reverse, ?_⟩
  intro mappings files file_context fs tasks h
  unfold run_mappings
  rw [h]
  exact run_task_loop_eq_reverse file_context tasks fs

theorem run_drains_tasks_in_reverse_witness :
    run_mappings [] [] dummy_map_file_context ⟨[], []⟩ =
      execute_all dummy_map_file_context ([] : List MapFileTask).reverse ⟨[], []⟩ :=
  run_drains_tasks_in_reverse.2 [] [] dummy_map_file_context ⟨[], []⟩ [] rfl
